import Mathlib

/-!
Shallow embedding of the patch-rewriting core of `filter_commits.py`:
the prefix rewriter (`rewrite_relative_path`), the prefix-map parser
(`parse_rewrites`) and the patch parser/rewriter (`rewrite_patch_content`),
together with theorems settling the specification claims.

Python string operations are modelled over `String.data : List Char`:
`splitlines`, whitespace `split`, `split(sep, 1)`, `strip`/`lstrip`/`rstrip`,
`startswith`, slicing by character index, and `str(PurePosixPath(...))`
normalization.  Python dicts are modelled as ordered association lists with
in-place value update on duplicate keys.
-/

/-- Boolean test that the first list is a prefix of the second. -/
def listPrefix : List Char → List Char → Bool
  | [], _ => true
  | _ :: _, [] => false
  | a :: as, b :: bs => (a == b) && listPrefix as bs

/-- Python `s.startswith(p)`. -/
def strStarts (s p : String) : Bool := listPrefix p.data s.data

/-- Python slice `s[:n]` (by characters). -/
def strTake (s : String) (n : Nat) : String := ⟨s.data.take n⟩

/-- Python slice `s[n:]` (by characters). -/
def strDrop (s : String) (n : Nat) : String := ⟨s.data.drop n⟩

/-- Characters Python's `str.isspace` (hence `str.split()` / `str.strip()`)
treats as whitespace. -/
def pyIsSpace (c : Char) : Bool :=
  c == ' ' || c == '\t' || c == '\n' || c == '\r' || c == '\x0b' || c == '\x0c' ||
  c == '\x1c' || c == '\x1d' || c == '\x1e' || c == '\x1f' || c == '\x85' ||
  c == '\xa0' || c == ' ' || c == ' ' || c == ' ' || c == ' ' ||
  c == ' ' || c == ' ' || c == ' ' || c == ' ' || c == ' ' ||
  c == ' ' || c == ' ' || c == ' ' || c == ' ' || c == ' ' ||
  c == ' ' || c == ' ' || c == '　'

/-- Characters Python's `str.splitlines` treats as line boundaries. -/
def isLineBreak (c : Char) : Bool :=
  c == '\n' || c == '\r' || c == '\x0b' || c == '\x0c' || c == '\x1c' ||
  c == '\x1d' || c == '\x1e' || c == '\x85' || c == ' ' || c == ' '

/-- Worker for `pySplitlines`; `acc` holds the current line reversed. -/
def splitlinesGo : List Char → List Char → List String
  | [], acc => if acc.isEmpty then [] else [⟨acc.reverse⟩]
  | '\r' :: '\n' :: rest, acc => ⟨acc.reverse⟩ :: splitlinesGo rest []
  | c :: rest, acc =>
    if isLineBreak c then ⟨acc.reverse⟩ :: splitlinesGo rest []
    else splitlinesGo rest (c :: acc)

/-- Python `s.splitlines()`. -/
def pySplitlines (s : List Char) : List String := splitlinesGo s []

/-- Worker for `pySplitWs`; `acc` holds the current word reversed. -/
def pySplitWsGo : List Char → List Char → List String
  | [], acc => if acc.isEmpty then [] else [⟨acc.reverse⟩]
  | c :: rest, acc =>
    if pyIsSpace c then
      if acc.isEmpty then pySplitWsGo rest []
      else ⟨acc.reverse⟩ :: pySplitWsGo rest []
    else pySplitWsGo rest (c :: acc)

/-- Python `s.split()` (split on whitespace runs, no empty words). -/
def pySplitWs (s : String) : List String := pySplitWsGo s.data []

/-- Split a character list at the first occurrence of `c`; `none` when absent. -/
def splitAtFirst (c : Char) : List Char → Option (List Char × List Char)
  | [] => none
  | x :: xs =>
    if x == c then some ([], xs)
    else
      match splitAtFirst c xs with
      | some (a, b) => some (x :: a, b)
      | none => none

/-- Python `s.split(" ", 1)` when it yields two fields. -/
def splitFirstSpace (s : String) : Option (String × String) :=
  match splitAtFirst ' ' s.data with
  | some (a, b) => some (⟨a⟩, ⟨b⟩)
  | none => none

/-- Membership test for a character in a list (Python `c in s`). -/
def listContains : List Char → Char → Bool
  | [], _ => false
  | c :: cs, a => (c == a) || listContains cs a

/-- Python `s.strip("/")`. -/
def stripSlashes (s : String) : String :=
  ⟨((s.data.dropWhile (fun c => c == '/')).reverse.dropWhile (fun c => c == '/')).reverse⟩

/-- Python `s.lstrip("/")`. -/
def lstripSlashes (s : String) : String := ⟨s.data.dropWhile (fun c => c == '/')⟩

/-- Python `s.strip()`. -/
def pyStrip (s : String) : String :=
  ⟨((s.data.dropWhile pyIsSpace).reverse.dropWhile pyIsSpace).reverse⟩

/-- Python `s.rstrip("\n")`. -/
def rstripNl (s : String) : String :=
  ⟨(s.data.reverse.dropWhile (fun c => c == '\n')).reverse⟩

/-- Python `s.endswith("\n")`. -/
def endsWithNl (s : String) : Bool :=
  match s.data.getLast? with
  | some c => c == '\n'
  | none => false

/-- Python `sep.join(parts)`. -/
def joinWith (sep : String) : List String → String
  | [] => ""
  | [x] => x
  | x :: xs => x ++ sep ++ joinWith sep xs

/-- Worker splitting a character list on `'/'`; `acc` holds the current
component reversed. -/
def splitOnSlashGo : List Char → List Char → List String
  | [], acc => [⟨acc.reverse⟩]
  | c :: rest, acc =>
    if c == '/' then ⟨acc.reverse⟩ :: splitOnSlashGo rest []
    else splitOnSlashGo rest (c :: acc)

/-- Slash components of a string with empty and `"."` components removed,
as `PurePosixPath` normalization does. -/
def posixNormParts (s : String) : List String :=
  (splitOnSlashGo s.data []).filter (fun p => !(p == "" || p == "."))

/-- Python `str(PurePosixPath(s))` for a relative string without leading
slashes: drop empty and `"."` components; an empty result renders as `"."`. -/
def purePosixStr (s : String) : String :=
  match posixNormParts s with
  | [] => "."
  | ps => joinWith "/" ps

/-- Normalization applied to each side of a `SRC=DEST` entry:
`str(PurePosixPath(side.strip().strip("/")))`. -/
def normComponent (s : String) : String := purePosixStr (stripSlashes (pyStrip s))

/-- Python dict assignment `m[k] = v` on an ordered association list:
update in place when the key exists, else append. -/
def insertOrUpdate (m : List (String × String)) (k v : String) : List (String × String) :=
  match m with
  | [] => [(k, v)]
  | (k₀, v₀) :: rest =>
    if k₀ = k then (k, v) :: rest else (k₀, v₀) :: insertOrUpdate rest k v

/-- Worker for `parse_rewrites`, carrying the mapping built so far. -/
def parseGo : List String → List (String × String) → Except String (List (String × String))
  | [], acc => .ok acc
  | raw :: rest, acc =>
    if listContains raw.data '=' = false then
      .error ("Invalid rewrite \x27" ++ raw ++ "\x27; expected SRC=DEST")
    else
      match splitAtFirst '=' raw.data with
      | none => .error ("Invalid rewrite \x27" ++ raw ++ "\x27; expected SRC=DEST")
      | some (s, d) =>
        let src_norm := normComponent ⟨s⟩
        let dest_norm := normComponent ⟨d⟩
        if src_norm = "" ∨ dest_norm = "" then
          .error ("Invalid rewrite \x27" ++ raw ++ "\x27; empty component")
        else parseGo rest (insertOrUpdate acc src_norm dest_norm)

/-- `parse_rewrites` from the source: parse `SRC=DEST` directives into an
ordered mapping, failing on an entry without `=` or with an empty
normalized side. -/
def parse_rewrites (entries : List String) : Except String (List (String × String)) :=
  parseGo entries []

/-- Worker for `rewrite_relative_path`: try each mapping entry in order
against the already-normalized path. -/
def rewriteGo (normalized : String) : List (String × String) → String
  | [] => normalized
  | (src, dest) :: rest =>
    if normalized = src then dest
    else if strStarts normalized (src ++ "/") = true then
      let suffix := lstripSlashes (strDrop normalized src.length)
      if suffix = "" then dest else dest ++ "/" ++ suffix
    else rewriteGo normalized rest

/-- `rewrite_relative_path` from the source: strip boundary slashes, then
rewrite by the first matching prefix entry. -/
def rewrite_relative_path (path : String) (rewrites : List (String × String)) : String :=
  rewriteGo (stripSlashes path) rewrites

/-- The warning recorded for a dropped chunk. -/
def warnFor (commit missing : String) : String :=
  "Warning: skipping commit " ++ commit ++ " file " ++ missing ++ " (missing target)"

/-- Accumulator state of the line scan in `rewrite_patch_content`. -/
structure ScanState where
  preamble : List String
  chunks : List (List String)
  warnings : List String
  current_chunk : Option (List String)
  current_target : Option String

/-- `flush_chunk` from the source: keep the pending chunk when its target is
a non-empty path that exists, otherwise record a warning; reset the pending
chunk and target. -/
def flush_chunk (ex : String → Bool) (commit : String) (st : ScanState) : ScanState :=
  match st.current_chunk with
  | none => st
  | some cc =>
    match st.current_target with
    | some t =>
      if t ≠ "" ∧ ex t = true then
        { st with chunks := st.chunks ++ [cc], current_chunk := none, current_target := none }
      else
        { st with warnings := st.warnings ++ [warnFor commit (if t = "" then "unknown path" else t)],
                  current_chunk := none, current_target := none }
    | none =>
      { st with warnings := st.warnings ++ [warnFor commit "unknown path"],
                current_chunk := none, current_target := none }

/-- Rewrite one `a/`- or `b/`-prefixed token of a `diff --git` header line. -/
def hdrToken (rw : List (String × String)) (prefixed : String) : String :=
  if strStarts prefixed "a/" = true ∨ strStarts prefixed "b/" = true then
    strTake prefixed 2 ++ rewrite_relative_path (strDrop prefixed 2) rw
  else prefixed

/-- Rebuild a `diff --git` header line with its third and fourth
whitespace-separated tokens rewritten (when at least four are present). -/
def headerLine (rw : List (String × String)) (line : String) : String :=
  let parts := pySplitWs line
  let parts2 :=
    match parts with
    | p0 :: p1 :: p2 :: p3 :: rest => p0 :: p1 :: hdrToken rw p2 :: hdrToken rw p3 :: rest
    | other => other
  joinWith " " parts2

/-- Target update performed after rewriting a `--- `/`+++ ` path line, with
`pre` bound to the first four characters of the line as in the source. -/
def newTarget (pre rel : String) (tgt : Option String) : Option String :=
  if pre = "+++" then some rel
  else if pre = "---" ∧ tgt = none then some rel
  else tgt

/-- Rewrite one non-header line inside a chunk, returning the emitted line
and the updated tracked target. -/
def rewriteLine (rw : List (String × String)) (line : String) (tgt : Option String) :
    String × Option String :=
  if strStarts line "--- " = true ∨ strStarts line "+++ " = true then
    let pre := strTake line 4
    let path_str := strDrop line 4
    if path_str ≠ "/dev/null" ∧ (strStarts path_str "a/" = true ∨ strStarts path_str "b/" = true) then
      let rel := rewrite_relative_path (strDrop path_str 2) rw
      (pre ++ strTake path_str 2 ++ rel, newTarget pre rel tgt)
    else if path_str ≠ "/dev/null" then
      let rel := rewrite_relative_path path_str rw
      (pre ++ rel, newTarget pre rel tgt)
    else if tgt = none ∧ pre = "---" then (line, none)
    else (line, tgt)
  else if strStarts line "rename from " = true ∨ strStarts line "rename to " = true then
    match splitFirstSpace line with
    | some (kw, rest) => (kw ++ " " ++ rewrite_relative_path (pyStrip rest) rw, tgt)
    | none => (line, tgt)
  else if strStarts line "copy from " = true ∨ strStarts line "copy to " = true then
    match splitFirstSpace line with
    | some (kw, rest) => (kw ++ " " ++ rewrite_relative_path (pyStrip rest) rw, tgt)
    | none => (line, tgt)
  else (line, tgt)

/-- Process one line of the patch: a `diff --git ` line flushes the pending
chunk and starts a new one; other lines go to the preamble (before any
header) or are rewritten into the current chunk. -/
def scanLine (rw : List (String × String)) (ex : String → Bool) (commit : String)
    (st : ScanState) (line : String) : ScanState :=
  if strStarts line "diff --git " = true then
    let st1 := flush_chunk ex commit st
    { st1 with current_chunk := some [headerLine rw line] }
  else
    match st.current_chunk with
    | none => { st with preamble := st.preamble ++ [line] }
    | some cc =>
      let r := rewriteLine rw line st.current_target
      { st with current_chunk := some (cc ++ [r.1]), current_target := r.2 }

/-- The sequential scan over all lines of the patch. -/
def scanLines (rw : List (String × String)) (ex : String → Bool) (commit : String) :
    List String → ScanState → ScanState
  | [], st => st
  | l :: ls, st => scanLines rw ex commit ls (scanLine rw ex commit st l)

/-- A file-header line, as recognized by the scan. -/
def isHeader (l : String) : Bool := strStarts l "diff --git "

/-- Number of file-header lines in a text. -/
def countHeaders (s : String) : Nat := ((pySplitlines s.data).filter isHeader).length

/-- Assemble the final result from the scan state after the last flush:
empty output when no chunk was kept, otherwise preamble (followed by one
blank separator line when non-empty and not already blank-terminated) plus
the kept chunks, joined by newlines with exactly one trailing newline. -/
def assembleOutput (st2 : ScanState) : String × List String :=
  if st2.chunks = [] then ("", st2.warnings)
  else
    let result_lines :=
      if st2.preamble ≠ [] ∧ st2.preamble.getLast? ≠ some "" then st2.preamble ++ [""]
      else st2.preamble
    (rstripNl (joinWith "\n" (result_lines ++ st2.chunks.flatten)) ++ "\n", st2.warnings)

/-- `rewrite_patch_content` from the source: with an empty mapping, return
the text with a newline appended when missing; otherwise scan the lines,
flush the final chunk, and reassemble preamble plus kept chunks (empty
output when no chunk was kept). -/
def rewrite_patch_content (patch_text : String) (rewrites : List (String × String))
    (ex : String → Bool) (commit : String) : String × List String :=
  if rewrites = [] then
    ((if endsWithNl patch_text = true then patch_text else patch_text ++ "\n"), [])
  else
    assembleOutput (flush_chunk ex commit
      (scanLines rewrites ex commit (pySplitlines patch_text.data) ⟨[], [], [], none, none⟩))

/-- The invariant maintained by the scan when the tracked target starts out
unset: it stays unset, no chunk is ever kept, and every warning has the
fixed unknown-path form. -/
def ScanInv (c : String) (st : ScanState) : Prop :=
  st.current_target = none ∧ st.chunks = [] ∧
  ∀ w ∈ st.warnings, w = warnFor c "unknown path"

/-- One pending chunk counts one. -/
def optCount : Option (List String) → Nat
  | none => 0
  | some _ => 1

/-- A boolean prefix gives the corresponding `take`. -/
theorem listPrefix_take (p s : List Char) (h : listPrefix p s = true) : s.take p.length = p := by
  induction p generalizing s with
  | nil => simp
  | cons a as ih =>
    cases s with
    | nil => simp [listPrefix] at h
    | cons b bs =>
      simp only [listPrefix, Bool.and_eq_true, beq_iff_eq] at h
      obtain ⟨rfl, h2⟩ := h
      simp [List.take_succ_cons, ih bs h2]

/-- Any list is a boolean prefix of itself extended to the right. -/
theorem listPrefix_append_self (xs ys : List Char) : listPrefix xs (xs ++ ys) = true := by
  induction xs with
  | nil => rfl
  | cons a as ih => simp [listPrefix, ih]

/-- `startswith` determines the leading slice of the line. -/
theorem strTake_of_starts {s p : String} {n : Nat} (h : strStarts s p = true)
    (hn : p.data.length = n) : strTake s n = p := by
  have h2 := listPrefix_take p.data s.data h
  unfold strTake
  rw [← hn, h2]

/-- A line starting with `"--- "` or `"+++ "` has that four-character prefix,
which differs from the three-character markers the source compares against;
the target update is therefore the identity. -/
theorem newTarget_of_marker (pre rel : String) (tgt : Option String)
    (h : pre = "--- " ∨ pre = "+++ ") : newTarget pre rel tgt = tgt := by
  unfold newTarget
  rcases h with rfl | rfl
  · rw [if_neg (by decide), if_neg (fun hc => by simpa using hc.1)]
  · rw [if_neg (by decide), if_neg (fun hc => by simpa using hc.1)]

/-- The scan never sets the tracked target: rewriting any single line maps an
unset target to an unset target. -/
theorem rewriteLine_target_none (rw : List (String × String)) (line : String) :
    (rewriteLine rw line none).2 = none := by
  unfold rewriteLine
  by_cases h : strStarts line "--- " = true ∨ strStarts line "+++ " = true
  · have hpre : strTake line 4 = "--- " ∨ strTake line 4 = "+++ " := by
      rcases h with h1 | h1
      · exact Or.inl (strTake_of_starts h1 (by decide))
      · exact Or.inr (strTake_of_starts h1 (by decide))
    rw [if_pos h]
    dsimp only
    split_ifs with h1 h2 h3
    · simpa using newTarget_of_marker _ _ _ hpre
    · simpa using newTarget_of_marker _ _ _ hpre
    · rfl
    · rfl
  · rw [if_neg h]
    split_ifs with h1 h2
    · cases hsp : splitFirstSpace line with
      | none => rfl
      | some kv => rfl
    · cases hsp : splitFirstSpace line with
      | none => rfl
      | some kv => rfl
    · rfl

/-- One scan step preserves the invariant and accounts warnings-plus-pending
against the number of header lines seen. -/
theorem scanLine_inv (rw : List (String × String)) (ex : String → Bool) (c : String)
    (st : ScanState) (line : String) (h : ScanInv c st) :
    ScanInv c (scanLine rw ex c st line) ∧
    (scanLine rw ex c st line).warnings.length + optCount (scanLine rw ex c st line).current_chunk
      = st.warnings.length + optCount st.current_chunk +
          (if isHeader line = true then 1 else 0) := by
  obtain ⟨ht, hc, hw⟩ := h
  by_cases hh : strStarts line "diff --git " = true
  · have hh2 : isHeader line = true := hh
    cases hcc : st.current_chunk with
    | none =>
      refine ⟨⟨?_, ?_, ?_⟩, ?_⟩ <;>
        simp [scanLine, hh, hh2, flush_chunk, hcc, ht, hc, hw, optCount] <;>
        first
          | exact hw
          | exact fun w hw2 => hw2.elim (hw w) id
    | some cc =>
      refine ⟨⟨?_, ?_, ?_⟩, ?_⟩ <;>
        simp [scanLine, hh, hh2, flush_chunk, hcc, ht, hc, hw, optCount] <;>
        first
          | exact hw
          | exact fun w hw2 => hw2.elim (hw w) id
  · have hh2 : isHeader line = false := by simpa [isHeader] using hh
    cases hcc : st.current_chunk with
    | none =>
      refine ⟨⟨?_, ?_, ?_⟩, ?_⟩ <;>
        simp [scanLine, hh, hh2, hcc, ht, hc, hw, optCount] <;>
        first
          | exact hw
          | exact fun w hw2 => hw2.elim (hw w) id
    | some cc =>
      refine ⟨⟨?_, ?_, ?_⟩, ?_⟩ <;>
        simp [scanLine, hh, hh2, hcc, ht, hc, hw, optCount, rewriteLine_target_none] <;>
        first
          | exact hw
          | exact fun w hw2 => hw2.elim (hw w) id

/-- The full scan preserves the invariant; warnings plus the pending chunk
account for exactly the header lines of the input. -/
theorem scanLines_inv (rw : List (String × String)) (ex : String → Bool) (c : String)
    (lines : List String) (st : ScanState) (h : ScanInv c st) :
    ScanInv c (scanLines rw ex c lines st) ∧
    (scanLines rw ex c lines st).warnings.length +
        optCount (scanLines rw ex c lines st).current_chunk
      = st.warnings.length + optCount st.current_chunk + (lines.filter isHeader).length := by
  induction lines generalizing st with
  | nil => simpa [scanLines] using h
  | cons l ls ih =>
    obtain ⟨h1, h2⟩ := scanLine_inv rw ex c st l h
    obtain ⟨h3, h4⟩ := ih (scanLine rw ex c st l) h1
    refine ⟨h3, ?_⟩
    rw [scanLines, h4, h2]
    by_cases hl : isHeader l = true
    · simp [List.filter_cons, hl]
      omega
    · simp [List.filter_cons, hl]

/-- With a non-empty mapping the rewriter keeps nothing: the output is empty
and the warnings are one fixed unknown-path warning per input header line. -/
theorem rpc_dropped (text : String) (rw : List (String × String)) (ex : String → Bool)
    (c : String) (h : rw ≠ []) :
    rewrite_patch_content text rw ex c
      = ("", List.replicate (countHeaders text) (warnFor c "unknown path")) := by
  obtain ⟨⟨ht1, hc1, hw1⟩, hlen⟩ :=
    scanLines_inv rw ex c (pySplitlines text.data) ⟨[], [], [], none, none⟩
      ⟨rfl, rfl, by simp⟩
  unfold rewrite_patch_content
  rw [if_neg h]
  set st1 := scanLines rw ex c (pySplitlines text.data) ⟨[], [], [], none, none⟩ with hst1
  have hcount : st1.warnings.length + optCount st1.current_chunk = countHeaders text := by
    rw [hlen]
    simp [countHeaders, optCount]
  cases hcc : st1.current_chunk with
  | none =>
    have hfl : flush_chunk ex c st1 = st1 := by simp [flush_chunk, hcc]
    rw [hfl, assembleOutput, if_pos hc1]
    refine Prod.ext rfl ?_
    refine List.eq_replicate_iff.mpr ⟨?_, hw1⟩
    simpa [hcc, optCount] using hcount
  | some cc =>
    have hfl : flush_chunk ex c st1 =
        { st1 with warnings := st1.warnings ++ [warnFor c "unknown path"],
                   current_chunk := none, current_target := none } := by
      simp [flush_chunk, hcc, ht1]
    rw [hfl, assembleOutput]
    simp only [hc1, if_pos]
    refine Prod.ext rfl ?_
    refine List.eq_replicate_iff.mpr ⟨?_, ?_⟩
    · simp only [List.length_append, List.length_singleton]
      simpa [hcc, optCount] using hcount
    · intro b hb
      rcases List.mem_append.mp hb with hb | hb
      · exact hw1 b hb
      · simpa using hb

/-- Equal character data gives equal strings. -/
theorem strExt {s t : String} (h : s.data = t.data) : s = t :=
  congrArg String.mk h

/-- Dropping the length of the left part of an append yields the right part. -/
theorem listDropLen (l₁ l₂ : List Char) : (l₁ ++ l₂).drop l₁.length = l₂ := by
  induction l₁ with
  | nil => rfl
  | cons a as ih => simpa using ih

/-- Data of a double append, with the middle a single slash. -/
theorem dataSlashMid (src suffix : String) :
    (src ++ "/" ++ suffix).data = src.data ++ '/' :: suffix.data := by
  simp [String.data_append]

/-- C6 core, first branch: a normalized path equal to the source maps to the
destination. -/
theorem rewriteGo_eq_src (src dest : String) :
    rewriteGo src [(src, dest)] = dest := by
  simp [rewriteGo]

/-- C6 core, second branch: a normalized path `src ++ "/" ++ suffix` with a
nonempty suffix not starting with a slash maps to `dest ++ "/" ++ suffix`. -/
theorem rewriteGo_under_src (src dest suffix : String) (hs : suffix ≠ "")
    (hl : strStarts suffix "/" = false) :
    rewriteGo (src ++ "/" ++ suffix) [(src, dest)] = dest ++ "/" ++ suffix := by
  have hne : (src ++ "/" ++ suffix) ≠ src := by
    intro he
    have h2 := congrArg (fun z : String => z.data.length) he
    simp only [dataSlashMid, List.length_append, List.length_cons] at h2
    omega
  have hstart : strStarts (src ++ "/" ++ suffix) (src ++ "/") = true := by
    unfold strStarts
    have hdat : (src ++ "/" ++ suffix).data = (src ++ "/").data ++ suffix.data :=
      String.data_append _ _
    rw [hdat]
    exact listPrefix_append_self _ _
  have hdrop : strDrop (src ++ "/" ++ suffix) src.length = ⟨'/' :: suffix.data⟩ := by
    unfold strDrop
    rw [dataSlashMid]
    have : src.length = src.data.length := rfl
    rw [this, List.drop_left]
  have hstrip : lstripSlashes ⟨'/' :: suffix.data⟩ = suffix := by
    unfold lstripSlashes
    apply strExt
    simp only [List.dropWhile]
    have h1 : (('/' : Char) == '/') = true := by decide
    rw [h1]
    cases hd : suffix.data with
    | nil => exact absurd (strExt hd) hs
    | cons c cs =>
      by_cases hc : c = '/'
      · exfalso
        unfold strStarts at hl
        have hslash : ("/" : String).data = ['/'] := rfl
        rw [hslash, hd, hc] at hl
        simp [listPrefix] at hl
      · have hcb : (c == '/') = false := by simpa using hc
        simp [List.dropWhile, hcb]
  unfold rewriteGo
  rw [if_neg hne, if_pos hstart]
  dsimp only
  rw [hdrop, hstrip, if_neg hs]

/-- C6 core, third branch: a normalized path matching neither the source nor
its slash extension is returned unchanged. -/
theorem rewriteGo_unmatched (p src dest : String) (h1 : p ≠ src)
    (h2 : strStarts p (src ++ "/") = false) :
    rewriteGo p [(src, dest)] = p := by
  unfold rewriteGo
  rw [if_neg h1, if_neg (by simp [h2])]
  rfl

/-- A list with `'='` in the middle contains `'='`. -/
theorem listContains_append_mid (xs ys : List Char) :
    listContains (xs ++ '=' :: ys) '=' = true := by
  induction xs with
  | nil => simp [listContains]
  | cons c cs ih => simp [listContains, ih]

/-- Splitting at the first `'='` of `xs ++ '=' :: ys` with `'='` absent from
`xs` yields `(xs, ys)`. -/
theorem splitAtFirst_append (xs ys : List Char) (hx : listContains xs '=' = false) :
    splitAtFirst '=' (xs ++ '=' :: ys) = some (xs, ys) := by
  induction xs with
  | nil => simp [splitAtFirst]
  | cons c cs ih =>
    simp only [listContains, Bool.or_eq_false_iff] at hx
    obtain ⟨hc, hcs⟩ := hx
    simp [splitAtFirst, hc, ih hcs]

/-- Joining a nonempty head with slashes never yields the empty string. -/
theorem joinWith_cons_ne (x : String) (xs : List String) (hx : x ≠ "") :
    joinWith "/" (x :: xs) ≠ "" := by
  cases xs with
  | nil => simpa [joinWith] using hx
  | cons y ys =>
    intro he
    have h2 := congrArg (fun z : String => z.data.length) he
    simp only [joinWith, String.data_append, List.length_append, List.length_singleton,
      List.length_nil] at h2
    have hone : ("/" : String).data.length = 1 := rfl
    have hzero : ("" : String).data.length = 0 := rfl
    omega

/-- `str(PurePosixPath(...))` normalization never yields the empty string:
the dead empty-component check in `parse_rewrites` can never fire. -/
theorem normComponent_ne_empty (s : String) : normComponent s ≠ "" := by
  unfold normComponent purePosixStr
  cases hp : posixNormParts (stripSlashes (pyStrip s)) with
  | nil => decide
  | cons p ps =>
    have hmem : p ∈ posixNormParts (stripSlashes (pyStrip s)) := by
      rw [hp]; exact List.mem_cons_self p ps
    have hpred := List.of_mem_filter hmem
    have hpne : p ≠ "" := by
      simp only [Bool.not_eq_true', Bool.or_eq_false_iff, beq_eq_false_iff_ne, ne_eq] at hpred
      simpa using hpred.1
    exact joinWith_cons_ne p ps hpne

/-- Data of an entry `s ++ "=" ++ d`. -/
theorem dataEqMid (s d : String) : (s ++ "=" ++ d).data = s.data ++ '=' :: d.data := by
  simp [String.data_append]

/-- One parsing step on a well-formed entry `s ++ "=" ++ d` (no `'='` in
`s`): the normalized pair is recorded in the accumulator. -/
theorem parseGo_step (s d : String) (rest : List String) (acc : List (String × String))
    (hs : listContains s.data '=' = false) :
    parseGo ((s ++ "=" ++ d) :: rest) acc
      = parseGo rest (insertOrUpdate acc (normComponent s) (normComponent d)) := by
  have hc : listContains (s ++ "=" ++ d).data '=' = true := by
    rw [dataEqMid]; exact listContains_append_mid _ _
  have hsp : splitAtFirst '=' (s ++ "=" ++ d).data = some (s.data, d.data) := by
    rw [dataEqMid]; exact splitAtFirst_append _ _ hs
  have hetaS : (⟨s.data⟩ : String) = s := rfl
  have hetaD : (⟨d.data⟩ : String) = d := rfl
  simp only [parseGo, hc, hsp, hetaS, hetaD]
  rw [if_neg (by simp [hc]), if_neg ?_]
  rintro (h1 | h1)
  · exact normComponent_ne_empty s h1
  · exact normComponent_ne_empty d h1

/-- The unknown-path warning written out explicitly. -/
theorem warnFor_unknown (c : String) :
    warnFor c "unknown path"
      = "Warning: skipping commit " ++ c ++ " file unknown path (missing target)" := by
  unfold warnFor
  apply strExt
  simp only [String.data_append, List.append_assoc]
  have h : " file ".data ++ ("unknown path".data ++ " (missing target)".data)
      = " file unknown path (missing target)".data := by decide
  rw [h]

/-- C1: contrary to the claim, a `+++ ` line naming a non-sentinel path does
not set the chunk target (nor does a `--- ` line): the source compares the
four-character slice `"+++ "` against `"+++"`, so the target stays unset
even though the path itself is rewritten. -/
theorem c1_path_lines_never_set_target :
    rewriteLine [("old", "new")] "+++ b/old/a.txt" none = ("+++ b/new/a.txt", none) ∧
    rewriteLine [("old", "new")] "--- a/old/a.txt" none = ("--- a/new/a.txt", none) :=
  ⟨rfl, rfl⟩

/-- C2: contrary to the claim, the single-chunk Scenario A patch for
`old/a.txt` with mapping `old=new` and an existence check answering true for
`new/a.txt` yields empty output and one unknown-path warning, because the
chunk target is never set. -/
theorem c2_scenario_a_dropped :
    rewrite_patch_content
        "diff --git a/old/a.txt b/old/a.txt\n--- a/old/a.txt\n+++ b/old/a.txt\n@@ -1 +1 @@\n-x\n+y"
        [("old", "new")] (fun p => p == "new/a.txt") "c0"
      = ("", ["Warning: skipping commit c0 file unknown path (missing target)"]) := rfl

/-- C3 counterexample: with an empty prefix map the input `"a\n\n"` is
returned with both trailing newlines intact, not normalized to exactly one
as the claim states. -/
theorem c3_counterexample :
    rewrite_patch_content "a\n\n" [] (fun _ => true) "c0" = ("a\n\n", []) ∧
    ("a\n\n" : String) ≠ "a\n" := ⟨rfl, by decide⟩

/-- C3 amended: with an empty prefix map the text is returned unchanged
except that a single newline is appended when the text does not already end
with one (existing trailing newlines are not collapsed), with no warnings. -/
theorem c3_amended_noop (t : String) (ex : String → Bool) (c : String) :
    rewrite_patch_content t [] ex c
      = ((if endsWithNl t = true then t else t ++ "\n"), []) := by
  unfold rewrite_patch_content
  rw [if_pos rfl]

/-- C4: contrary to the claim, entries with an empty side are accepted:
`"=dest"` and `"src="` parse successfully because `PurePosixPath` renders an
empty component as `"."`, so the empty-component check can never fire; only
a missing `=` is rejected. -/
theorem c4_empty_side_accepted :
    parse_rewrites ["=dest"] = Except.ok [(".", "dest")] ∧
    parse_rewrites ["src="] = Except.ok [("src", ".")] ∧
    parse_rewrites ["noequalsign"]
      = Except.error "Invalid rewrite \x27noequalsign\x27; expected SRC=DEST" :=
  ⟨rfl, rfl, rfl⟩

/-- C5: contrary to the claim, rename/copy lines are not rewritten: the
source splits at the first space, so the string passed to the prefix
rewriter is `"from old/a.txt"` rather than `"old/a.txt"`, and a path under a
mapped prefix is left unchanged even though the rewriter itself would map
`old/a.txt` to `new/a.txt`. -/
theorem c5_rename_copy_not_rewritten :
    rewriteLine [("old", "new")] "rename from old/a.txt" none
      = ("rename from old/a.txt", none) ∧
    rewriteLine [("old", "new")] "rename to old/a.txt" none
      = ("rename to old/a.txt", none) ∧
    rewriteLine [("old", "new")] "copy from old/a.txt" none
      = ("copy from old/a.txt", none) ∧
    rewriteLine [("old", "new")] "copy to old/a.txt" none
      = ("copy to old/a.txt", none) ∧
    rewrite_relative_path "old/a.txt" [("old", "new")] = "new/a.txt" :=
  ⟨rfl, rfl, rfl, rfl, rfl⟩

/-- C6: for a single-entry mapping, a normalized path equal to the source
maps to the destination; `src ++ "/" ++ suffix` (suffix nonempty, no leading
slash) maps to `dest ++ "/" ++ suffix`; an unmatched normalized path is
returned unchanged; and the empty mapping only normalizes boundary
slashes. -/
theorem c6_prefix_containment (p src dest suffix : String)
    (hs : suffix ≠ "") (hl : strStarts suffix "/" = false) :
    (stripSlashes p = src → rewrite_relative_path p [(src, dest)] = dest) ∧
    (stripSlashes p = src ++ "/" ++ suffix →
      rewrite_relative_path p [(src, dest)] = dest ++ "/" ++ suffix) ∧
    (stripSlashes p ≠ src → strStarts (stripSlashes p) (src ++ "/") = false →
      rewrite_relative_path p [(src, dest)] = stripSlashes p) ∧
    rewrite_relative_path p [] = stripSlashes p := by
  refine ⟨?_, ?_, ?_, ?_⟩
  · intro h
    unfold rewrite_relative_path
    rw [h]
    exact rewriteGo_eq_src src dest
  · intro h
    unfold rewrite_relative_path
    rw [h]
    exact rewriteGo_under_src src dest suffix hs hl
  · intro h1 h2
    unfold rewrite_relative_path
    exact rewriteGo_unmatched _ src dest h1 h2
  · rfl

/-- C6 witness at `p = "old/x"`, mapping `old=new`, suffix `"x"`. -/
theorem c6_witness :
    (("x" : String) ≠ "" ∧ strStarts "x" "/" = false) ∧
    rewrite_relative_path "old/x" [("old", "new")] = "new/x" := by
  refine ⟨⟨by decide, by decide⟩, ?_⟩
  have h := (c6_prefix_containment "old/x" "old" "new" "x" (by decide) (by decide)).2.1
    (by decide)
  exact h.trans (by decide)

/-- C7: with a non-empty prefix map, the output never has more header lines
than the input, the output header count is the input count minus the number
of warnings, and when the existence check reports everything missing the
output is empty with one warning per input chunk. -/
theorem c7_chunk_count_invariant (text : String) (rw : List (String × String))
    (ex : String → Bool) (c : String) (h : rw ≠ []) :
    countHeaders (rewrite_patch_content text rw ex c).1 ≤ countHeaders text ∧
    countHeaders (rewrite_patch_content text rw ex c).1
      = countHeaders text - (rewrite_patch_content text rw ex c).2.length ∧
    ((∀ p, ex p = false) →
      (rewrite_patch_content text rw ex c).1 = "" ∧
      (rewrite_patch_content text rw ex c).2.length = countHeaders text) := by
  have hm := rpc_dropped text rw ex c h
  rw [hm]
  have h0 : countHeaders "" = 0 := rfl
  refine ⟨?_, ?_, fun _ => ⟨rfl, ?_⟩⟩
  · simpa [h0] using Nat.zero_le _
  · simp [h0]
  · simp

/-- C7 witness: one-header input, all targets reported missing. -/
theorem c7_witness :
    ([("old", "new")] : List (String × String)) ≠ [] ∧
    (rewrite_patch_content "diff --git a/old/x b/old/x\n+++ b/old/x" [("old", "new")]
        (fun _ => false) "c0").1 = "" ∧
    (rewrite_patch_content "diff --git a/old/x b/old/x\n+++ b/old/x" [("old", "new")]
        (fun _ => false) "c0").2.length
      = countHeaders "diff --git a/old/x b/old/x\n+++ b/old/x" :=
  ⟨by decide,
    (c7_chunk_count_invariant "diff --git a/old/x b/old/x\n+++ b/old/x" [("old", "new")]
        (fun _ => false) "c0" (by decide)).2.2 (fun p => rfl)⟩

/-- C8: every dropped chunk produces one warning in the fixed format, and
since no chunk ever has a determined target the path always renders as
`unknown path`: the warning list is exactly one fixed-format warning per
input header line. -/
theorem c8_fixed_warning_format (text : String) (rw : List (String × String))
    (ex : String → Bool) (c : String) (h : rw ≠ []) :
    (rewrite_patch_content text rw ex c).2
      = List.replicate (countHeaders text)
          ("Warning: skipping commit " ++ c ++ " file unknown path (missing target)") := by
  rw [rpc_dropped text rw ex c h]
  exact congrArg (List.replicate (countHeaders text)) (warnFor_unknown c)

/-- C8 witness: one header, empty-bodied chunk with no path lines. -/
theorem c8_witness :
    ([("old", "new")] : List (String × String)) ≠ [] ∧
    (rewrite_patch_content "diff --git a/old/x b/old/x\nindex 111..222 100644" [("old", "new")]
        (fun _ => true) "c1").2
      = List.replicate (countHeaders "diff --git a/old/x b/old/x\nindex 111..222 100644")
          ("Warning: skipping commit " ++ "c1" ++ " file unknown path (missing target)") :=
  ⟨by decide,
    c8_fixed_warning_format "diff --git a/old/x b/old/x\nindex 111..222 100644" [("old", "new")]
      (fun _ => true) "c1" (by decide)⟩

/-- C9: with a non-empty prefix map, an input without any file-header line
produces empty output and an empty warning list: the preamble is discarded
silently. -/
theorem c9_no_header_silent_empty (text : String) (rw : List (String × String))
    (ex : String → Bool) (c : String) (h : rw ≠ [])
    (hnone : ∀ l ∈ pySplitlines text.data, isHeader l = false) :
    rewrite_patch_content text rw ex c = ("", []) := by
  have h0 : countHeaders text = 0 := by
    unfold countHeaders
    have : (pySplitlines text.data).filter isHeader = [] := by
      rw [List.filter_eq_nil_iff]
      intro a ha
      simp [hnone a ha]
    rw [this]
    rfl
  rw [rpc_dropped text rw ex c h, h0]
  rfl

/-- C9 witness: a two-line preamble-only input. -/
theorem c9_witness :
    ([("a", "b")] : List (String × String)) ≠ [] ∧
    rewrite_patch_content "hello\nworld" [("a", "b")] (fun _ => true) "c0" = ("", []) :=
  ⟨by decide, c9_no_header_silent_empty "hello\nworld" [("a", "b")] (fun _ => true) "c0"
    (by decide) (by decide)⟩

/-- C10: two entries whose sources normalize to the same path parse
successfully into a single mapping entry carrying the last occurrence's
destination at the first occurrence's position, here with an unrelated
entry in between to exhibit the ordering. -/
theorem c10_duplicate_sources (s d1 t e d2 : String)
    (hs : listContains s.data '=' = false)
    (ht : listContains t.data '=' = false)
    (hne : normComponent t ≠ normComponent s) :
    parse_rewrites [s ++ "=" ++ d1, t ++ "=" ++ e, s ++ "=" ++ d2]
      = Except.ok [(normComponent s, normComponent d2), (normComponent t, normComponent e)] := by
  unfold parse_rewrites
  rw [parseGo_step s d1 _ _ hs, parseGo_step t e _ _ ht, parseGo_step s d2 _ _ hs]
  simp only [insertOrUpdate, if_neg (Ne.symm hne), if_pos rfl]
  rfl

/-- C10 witness: `a=b`, `x=y`, `a=c` parse to `a=c` first, then `x=y`. -/
theorem c10_witness :
    (listContains ("a" : String).data '=' = false ∧
      listContains ("x" : String).data '=' = false ∧
      normComponent "x" ≠ normComponent "a") ∧
    parse_rewrites ["a" ++ "=" ++ "b", "x" ++ "=" ++ "y", "a" ++ "=" ++ "c"]
      = Except.ok [(normComponent "a", normComponent "c"), (normComponent "x", normComponent "y")] :=
  ⟨⟨by decide, by decide, by decide⟩,
    c10_duplicate_sources "a" "b" "x" "y" "c" (by decide) (by decide) (by decide)⟩
